import Mathlib

/-!
Verification of the ShoppyGlobe Redux state core: the cart slice
(`src/lib/features/cart/cart-slice.js`) and the products slice
(products-slice, with its `applyFilters` reducer and the memoized
`selectFilteredProducts` selector).

The JavaScript reducers are shallowly embedded as pure Lean functions on
explicit state records.  JS numbers used by the slices (ids, prices,
ratings, quantities) are modelled as `Int`; product fields that may be
missing or non-string in a malformed record are modelled as
`Option String` (`none` = missing / not a string).  A JS expression that
would throw a `TypeError` (e.g. `undefined.toLowerCase()`) is modelled by
an `Option`-valued function returning `none`.
-/

/-! ## Cart slice -/

/-- A cart line item, mirroring the `CartItem` shape of the cart slice:
`{ id, title, price, image, quantity }`. -/
structure CartItem where
  id : Int
  title : String
  price : Int
  image : String
  quantity : Int
deriving Repr, DecidableEq

/-- The `addToCart` payload: product details without a quantity. -/
structure ProductPayload where
  id : Int
  title : String
  price : Int
  image : String
deriving Repr, DecidableEq

/-- Cart state: `{ items: CartItem[], total: number }`. -/
structure CartState where
  items : List CartItem
  total : Int
deriving Repr, DecidableEq

/-- `initialState` of the cart slice: empty items, zero total. -/
def cartInitialState : CartState := { items := [], total := 0 }

/-- `state.items.reduce((sum, item) => sum + item.price * item.quantity, 0)` -/
def computeTotal (items : List CartItem) : Int :=
  items.foldl (fun sum it => sum + it.price * it.quantity) 0

/-- The line produced by `{ ...action.payload, quantity: q }`. -/
def mkLine (p : ProductPayload) (q : Int) : CartItem :=
  { id := p.id, title := p.title, price := p.price, image := p.image, quantity := q }

/-- `state.items.find(item => item.id === id).quantity += 1`: increment the
quantity of the first item whose id matches, leave everything else alone. -/
def incFirst (pid : Int) : List CartItem → List CartItem
  | [] => []
  | it :: rest =>
    if it.id = pid then { it with quantity := it.quantity + 1 } :: rest
    else it :: incFirst pid rest

/-- `state.items.find(item => item.id === id).quantity = q`: overwrite the
quantity of the first item whose id matches (no-op when no item matches). -/
def setQtyFirst (pid : Int) (q : Int) : List CartItem → List CartItem
  | [] => []
  | it :: rest =>
    if it.id = pid then { it with quantity := q } :: rest
    else it :: setQtyFirst pid q rest

/-- The `addToCart` reducer: increment the existing line's quantity, or push
`{ ...payload, quantity: 1 }`; then recompute the total. -/
def addToCart (s : CartState) (p : ProductPayload) : CartState :=
  let items :=
    if s.items.any (fun it => it.id == p.id) then incFirst p.id s.items
    else s.items ++ [mkLine p 1]
  { items := items, total := computeTotal items }

/-- The `removeFromCart` reducer: filter out items with the payload id,
then recompute the total. -/
def removeFromCart (s : CartState) (pid : Int) : CartState :=
  let items := s.items.filter (fun it => it.id != pid)
  { items := items, total := computeTotal items }

/-- The `updateQuantity` reducer: overwrite the matching item's quantity only
when the item exists and the requested quantity is at least 1, then recompute
the total.  (`setQtyFirst` is already a no-op when no item matches.) -/
def updateQuantity (s : CartState) (pid : Int) (q : Int) : CartState :=
  let items := if 1 ≤ q then setQtyFirst pid q s.items else s.items
  { items := items, total := computeTotal items }

/-- The `clearCart` reducer: `items = []`, `total = 0`. -/
def clearCart (_s : CartState) : CartState := { items := [], total := 0 }

/-- A cart intent: one dispatched cart action. -/
inductive CartIntent where
  | add (p : ProductPayload)
  | remove (pid : Int)
  | setQty (pid : Int) (q : Int)
  | clear
deriving Repr, DecidableEq

/-- One dispatch against the cart reducer. -/
def stepCart (s : CartState) : CartIntent → CartState
  | .add p => addToCart s p
  | .remove pid => removeFromCart s pid
  | .setQty pid q => updateQuantity s pid q
  | .clear => clearCart s

/-- Run a sequence of cart intents from the initial empty cart. -/
def runCart (intents : List CartIntent) : CartState :=
  intents.foldl stepCart cartInitialState

/-- Sum of the quantities of all lines (an observational measure used to
state that one `addToCart` adds exactly one unit). -/
def totalQty : List CartItem → Int
  | [] => 0
  | it :: l => it.quantity + totalQty l

/-! ## String primitives used by the products slice

`String.prototype.includes` and `toLowerCase` are modelled on the
character list of the string; `localeCompare(a, b) <= 0` is modelled as
code-point lexicographic order (`lexLe`).  Both the reducer and the
selector are modelled with the same collation, so nothing below depends
on the exact locale order. -/

/-- `leadMatch needle hay`: `needle` occurs at the very start of `hay`. -/
def leadMatch : List Char → List Char → Bool
  | [], _ => true
  | _ :: _, [] => false
  | a :: as, b :: bs => a == b && leadMatch as bs

/-- `hasSub needle hay`: `needle` occurs contiguously somewhere in `hay`. -/
def hasSub (needle : List Char) : List Char → Bool
  | [] => needle.isEmpty
  | c :: cs => leadMatch needle (c :: cs) || hasSub needle cs

/-- `s.includes(pat)` on strings. -/
def strContains (s pat : String) : Bool := hasSub pat.data s.data

/-- `s.toLowerCase()`, character by character. -/
def strLower (s : String) : String := String.mk (s.data.map Char.toLower)

/-- Lexicographic (code-point) order on character lists. -/
def lexLe : List Char → List Char → Bool
  | [], _ => true
  | _ :: _, [] => false
  | a :: as, b :: bs => if a == b then lexLe as bs else decide (a < b)

/-- `a.localeCompare(b) <= 0`, modelled as code-point order. -/
def strLe (a b : String) : Bool := lexLe a.data b.data

/-- Stable insertion of `a` into `l`: `a` goes in front of the first element
`b` with `le a b`.  Inserting the earlier element last makes the sort below
stable, matching the guaranteed stability of `Array.prototype.sort`. -/
def stableInsert (le : α → α → Bool) (a : α) : List α → List α
  | [] => [a]
  | b :: l => if le a b then a :: b :: l else b :: stableInsert le a l

/-- Stable sort by a boolean `le`, modelling `Array.prototype.sort` with a
comparator `cmp` where `le a b = (cmp(a, b) <= 0)`. -/
def stableSort (le : α → α → Bool) : List α → List α
  | [] => []
  | a :: l => stableInsert le a (stableSort le l)

/-! ## Products slice -/

/-- A product record.  `title`, `description`, `category` and `brand` are
`Option String`: `none` models a field that is missing or not a string (the
malformed records the reducer guards against with `typeof`). -/
structure Product where
  id : Int
  title : Option String
  description : Option String
  category : Option String
  brand : Option String
  price : Int
  rating : Int
deriving Repr, DecidableEq

/-- The `typeof f === "string" ? f.toLowerCase() : ""` guard: a missing or
non-string field is treated as the empty string. -/
def fieldStr (o : Option String) : String := o.getD ""

/-- Products slice state:
`{ products, filteredProducts, searchQuery, selectedCategory, sortBy,
loading, error, categories }`. -/
structure ProductsState where
  products : List Product
  filteredProducts : List Product
  searchQuery : String
  selectedCategory : String
  sortBy : String
  loading : Bool
  error : Option String
  categories : List (Option String)
deriving Repr, DecidableEq

/-- `initialState` of the products slice. -/
def productsInitialState : ProductsState :=
  { products := [], filteredProducts := [], searchQuery := "",
    selectedCategory := "", sortBy := "name", loading := false,
    error := none, categories := [] }

/-- The search predicate of the reducer `applyFilters`: case-insensitive
substring match of the query against title, description, category and brand,
with missing/non-string fields read as `""` through `fieldStr`. -/
def matchesSearch (q : String) (p : Product) : Bool :=
  let term := strLower q
  strContains (strLower (fieldStr p.title)) term ||
  strContains (strLower (fieldStr p.description)) term ||
  strContains (strLower (fieldStr p.category)) term ||
  strContains (strLower (fieldStr p.brand)) term

/-- Comparator `(a, b) => a.price - b.price` (ascending by price). -/
def priceAscLe (a b : Product) : Bool := decide (a.price ≤ b.price)

/-- Comparator `(a, b) => b.price - a.price` (descending by price). -/
def priceDescLe (a b : Product) : Bool := decide (b.price ≤ a.price)

/-- Comparator `(a, b) => b.rating - a.rating` (descending by rating). -/
def ratingLe (a b : Product) : Bool := decide (b.rating ≤ a.rating)

/-- Comparator on titles, `titleA.localeCompare(titleB)`, with the reducer's
`typeof` guard reading a malformed title as `""`. -/
def nameLe (a b : Product) : Bool := strLe (fieldStr a.title) (fieldStr b.title)

/-- The `switch (state.sortBy)` of the reducer `applyFilters`.  A sort key
outside the four cases leaves the list untouched (no `default` branch). -/
def sortStep (sortBy : String) (ps : List Product) : List Product :=
  if sortBy = "price-asc" then stableSort priceAscLe ps
  else if sortBy = "price-desc" then stableSort priceDescLe ps
  else if sortBy = "rating" then stableSort ratingLe ps
  else if sortBy = "name" then stableSort nameLe ps
  else ps

/-- The pure computation performed by the reducer `applyFilters`: search
filter (when the query is non-empty), then category filter (when the
selected category is non-empty — note: no `"all"` sentinel here), then
sort. -/
def computeFiltered (ps : List Product) (q sc sortBy : String) : List Product :=
  let f1 := if q = "" then ps else ps.filter (matchesSearch q)
  let f2 := if sc = "" then f1 else f1.filter (fun p => p.category == some sc)
  sortStep sortBy f2

/-- The `applyFilters` case reducer: recompute `filteredProducts` from the
current products, query, category and sort key. -/
def applyFilters (s : ProductsState) : ProductsState :=
  { s with filteredProducts :=
      computeFiltered s.products s.searchQuery s.selectedCategory s.sortBy }

/-- The `setLoading` reducer: `state.loading = action.payload` (and nothing
else). -/
def setLoading (s : ProductsState) (b : Bool) : ProductsState :=
  { s with loading := b }

/-- Helper for `dedupFirst`: keep elements not seen before, in order. -/
def dedupFirstAux : List (Option String) → List (Option String) → List (Option String)
  | _, [] => []
  | seen, x :: xs =>
    if seen.contains x then dedupFirstAux seen xs
    else x :: dedupFirstAux (x :: seen) xs

/-- `[...new Set(xs)]`: deduplicate keeping first occurrences, in order. -/
def dedupFirst (xs : List (Option String)) : List (Option String) :=
  dedupFirstAux [] xs

/-- The `setProducts` reducer: replace products, re-derive categories, clear
loading and error, and re-apply the current filters. -/
def setProducts (s : ProductsState) (ps : List Product) : ProductsState :=
  applyFilters
    { s with products := ps,
             categories := dedupFirst (ps.map (fun p => p.category)),
             loading := false, error := none }

/-- The `setError` reducer: record the message and stop loading. -/
def setError (s : ProductsState) (msg : String) : ProductsState :=
  { s with error := some msg, loading := false }

/-- The `setSearchQuery` reducer: store the query and re-apply filters. -/
def setSearchQuery (s : ProductsState) (q : String) : ProductsState :=
  applyFilters { s with searchQuery := q }

/-- The `setSelectedCategory` reducer: store the category and re-apply
filters. -/
def setSelectedCategory (s : ProductsState) (c : String) : ProductsState :=
  applyFilters { s with selectedCategory := c }

/-- The `setSortBy` reducer: store the sort key and re-apply filters. -/
def setSortBy (s : ProductsState) (k : String) : ProductsState :=
  applyFilters { s with sortBy := k }

/-! ## Memoized selector `selectFilteredProducts`

The selector's result function reads `product.title.toLowerCase()` (and, if
the title does not match, `description`, then `category`) with no `typeof`
guard, so a malformed field it actually reaches throws a `TypeError`; a
throw is modelled as `none`.  The `||` chain short-circuits, so fields after
the first match are never read.  The selector never reads `brand`. -/

/-- One product's search test in the selector, with JS short-circuit
evaluation; `none` models the `TypeError` thrown on a missing/non-string
field that gets dereferenced. -/
def selMatches (q : String) (p : Product) : Option Bool :=
  match p.title with
  | none => none
  | some t =>
    if strContains (strLower t) (strLower q) then some true
    else
      match p.description with
      | none => none
      | some d =>
        if strContains (strLower d) (strLower q) then some true
        else
          match p.category with
          | none => none
          | some c => some (strContains (strLower c) (strLower q))

/-- `Array.prototype.filter` with a predicate that may throw: the whole pass
fails (`none`) as soon as the predicate fails on some element. -/
def optFilter (f : Product → Option Bool) : List Product → Option (List Product)
  | [] => some []
  | p :: ps =>
    match f p, optFilter f ps with
    | some b, some rest => some (if b then p :: rest else rest)
    | _, _ => none

/-- The selector's `switch (sortBy)`: the three numeric cases never touch the
possibly-missing string fields; the `name`/`default` case compares
`a.title.localeCompare(b.title)` with no guard, so it is modelled as failing
(`none`) unless every title is present. -/
def selSort (sortBy : String) (ps : List Product) : Option (List Product) :=
  if sortBy = "price-asc" then some (stableSort priceAscLe ps)
  else if sortBy = "price-desc" then some (stableSort priceDescLe ps)
  else if sortBy = "rating" then some (stableSort ratingLe ps)
  else if ps.all (fun p => p.title.isSome) then some (stableSort nameLe ps)
  else none

/-- The memoized selector `selectFilteredProducts` as a pure function of its
four inputs `(products, searchQuery, selectedCategory, sortBy)`:
search filter (title/description/category only, unguarded), category filter
honouring the `"all"` sentinel, then sort. -/
def selectFilteredProducts (ps : List Product) (q sc sortBy : String) :
    Option (List Product) :=
  match (if q = "" then some ps else optFilter (selMatches q) ps) with
  | none => none
  | some f1 =>
    let f2 := if sc = "" || sc = "all" then f1
              else f1.filter (fun p => p.category == some sc)
    selSort sortBy f2

/-! ## Auxiliary notions and concrete fixtures -/

/-- `nw` is `old` with every field preserved except possibly the quantity,
which is either unchanged or bumped by one. -/
def sameLineButQty (old nw : CartItem) : Prop :=
  nw.id = old.id ∧ nw.title = old.title ∧ nw.price = old.price ∧
  nw.image = old.image ∧
  (nw.quantity = old.quantity ∨ nw.quantity = old.quantity + 1)

/-- Replace every possibly-malformed string field by the string the reducer
guard reads for it (`""` when missing/non-string). -/
def normalizeP (p : Product) : Product :=
  { p with title := some (fieldStr p.title),
           description := some (fieldStr p.description),
           category := some (fieldStr p.category),
           brand := some (fieldStr p.brand) }

/-- Fixture: the "Red Shoe" product of the specification scenarios. -/
def pShoe : Product :=
  { id := 1, title := some "Red Shoe", description := some "",
    category := some "shoes", brand := some "", price := 50, rating := 4 }

/-- Fixture: the "Blue Hat" product of the specification scenarios. -/
def pHat : Product :=
  { id := 2, title := some "Blue Hat", description := some "",
    category := some "hats", brand := some "", price := 10, rating := 5 }

/-- Fixture: a well-formed product whose only field containing "nike" is its
brand. -/
def pBrand : Product :=
  { id := 3, title := some "Shirt", description := some "cotton",
    category := some "clothes", brand := some "nike", price := 5, rating := 3 }

/-- Fixture: a malformed record — its title is missing/non-string — whose
description matches the query "x". -/
def pBad : Product :=
  { id := 4, title := none, description := some "x", category := some "c",
    brand := none, price := 1, rating := 1 }

/-- Fixture: an `addToCart` payload with id 1 and unit price 20. -/
def plW : ProductPayload := { id := 1, title := "T", price := 20, image := "i" }

/-- Fixture: a second payload with the same id 1 but different title, price
and image. -/
def plW2 : ProductPayload := { id := 1, title := "other", price := 99, image := "j" }

/-- Fixture: a products state carrying a previous error message. -/
def stErr : ProductsState := { productsInitialState with error := some "boom" }

/-- Fixture: a populated products state with a search query and category
already set, used to exercise `setError` and `applyFilters`. -/
def stBusy : ProductsState :=
  { productsInitialState with products := [pShoe, pHat],
                              filteredProducts := [pShoe],
                              searchQuery := "x", selectedCategory := "shoes" }

/-- Fixture: the spec's price-ascending scenario state. -/
def stScenario : ProductsState :=
  { productsInitialState with products := [pShoe, pHat],
                              sortBy := "price-asc" }

/-- Fixture: a state whose four filter inputs match pBrand only through its
brand field. -/
def stBrandQuery : ProductsState :=
  { productsInitialState with products := [pBrand],
                              searchQuery := "nike", sortBy := "price-asc" }

/-- Fixture: a state selecting the sentinel category "all". -/
def stAll : ProductsState :=
  { productsInitialState with products := [pShoe], selectedCategory := "all" }

/-! ## Lemmas about the cart reducers -/

theorem totalQty_incFirst (pid : Int) (l : List CartItem)
    (h : l.any (fun it => it.id == pid) = true) :
    totalQty (incFirst pid l) = totalQty l + 1 := by
  induction l with
  | nil => simp at h
  | cons it rest ih =>
    by_cases hid : it.id = pid
    · simp [incFirst, hid, totalQty]; ring
    · have hrest : rest.any (fun it => it.id == pid) = true := by
        simpa [List.any_cons, hid] using h
      simp [incFirst, hid, totalQty, ih hrest]; ring

theorem totalQty_append_one (l : List CartItem) (p : ProductPayload) :
    totalQty (l ++ [mkLine p 1]) = totalQty l + 1 := by
  induction l with
  | nil => simp [totalQty, mkLine]
  | cons it rest ih => simp [totalQty, ih]; ring

theorem length_incFirst (pid : Int) (l : List CartItem) :
    (incFirst pid l).length = l.length := by
  induction l with
  | nil => rfl
  | cons it rest ih => by_cases hid : it.id = pid <;> simp [incFirst, hid, ih]

theorem sameLineButQty_refl (a : CartItem) : sameLineButQty a a := by
  exact ⟨rfl, rfl, rfl, rfl, Or.inl rfl⟩

theorem incFirst_get? (pid : Int) (l : List CartItem) :
    ∀ (i : Nat) (old nw : CartItem), l[i]? = some old →
      (incFirst pid l)[i]? = some nw → sameLineButQty old nw := by
  induction l with
  | nil => intro i old nw h _; simp at h
  | cons it rest ih =>
    intro i old nw hold hnew
    simp only [incFirst] at hnew
    by_cases hid : it.id = pid
    · rw [if_pos hid] at hnew
      cases i with
      | zero =>
        simp only [List.getElem?_cons_zero, Option.some.injEq] at hold hnew
        subst hold; subst hnew
        exact ⟨rfl, rfl, rfl, rfl, Or.inr rfl⟩
      | succ j =>
        simp only [List.getElem?_cons_succ] at hold hnew
        rw [hold] at hnew
        injection hnew with h
        subst h
        exact sameLineButQty_refl _
    · rw [if_neg hid] at hnew
      cases i with
      | zero =>
        simp only [List.getElem?_cons_zero, Option.some.injEq] at hold hnew
        subst hold; subst hnew
        exact sameLineButQty_refl _
      | succ j =>
        simp only [List.getElem?_cons_succ] at hold hnew
        exact ih j old nw hold hnew

theorem stepCart_total (s : CartState) (i : CartIntent) :
    (stepCart s i).total = computeTotal (stepCart s i).items := by
  cases i <;>
    simp [stepCart, addToCart, removeFromCart, updateQuantity, clearCart,
      computeTotal]

/-! ## Cart claims -/

/-- Claim C1: starting from the empty cart, after every sequence of
add/remove/setQuantity/clear intents — hence after every single mutation,
each prefix being such a sequence — the stored `total` equals the fold
`Σ (price × quantity)` over the resulting items; moreover a single dispatch
re-establishes the invariant from any state whatsoever. -/
theorem cart_total_invariant :
    (∀ intents : List CartIntent,
        (runCart intents).total = computeTotal (runCart intents).items) ∧
    (∀ (s : CartState) (i : CartIntent),
        (stepCart s i).total = computeTotal (stepCart s i).items) := by
  constructor
  · have key : ∀ (intents : List CartIntent) (s : CartState),
        s.total = computeTotal s.items →
        (intents.foldl stepCart s).total
          = computeTotal (intents.foldl stepCart s).items := by
      intro intents
      induction intents with
      | nil => intro s h; simpa using h
      | cons i rest ih =>
        intro s _
        simpa using ih (stepCart s i) (stepCart_total s i)
    intro intents
    exact key intents cartInitialState rfl
  · exact stepCart_total

/-- Claim C2: `updateQuantity` with a requested quantity below 1 leaves the
list of cart lines entirely unchanged — the line is neither removed nor
clamped, and every line keeps its previous quantity. -/
theorem updateQuantity_below_one_keeps_lines (s : CartState) (pid q : Int)
    (h : q < 1) : (updateQuantity s pid q).items = s.items := by
  have hq : ¬ 1 ≤ q := by omega
  simp [updateQuantity, hq]

/-- Witness for C2 at a concrete cart and the invalid quantity 0. -/
theorem updateQuantity_below_one_keeps_lines_witness :
    (0 : Int) < 1 ∧
    (updateQuantity (addToCart cartInitialState plW) 1 0).items
      = (addToCart cartInitialState plW).items :=
  ⟨by decide,
   updateQuantity_below_one_keeps_lines (addToCart cartInitialState plW) 1 0
     (by decide)⟩

theorem double_add (p : ProductPayload) (q : ProductPayload) (hq : q.id = p.id) :
    (addToCart (addToCart cartInitialState p) q).items = [mkLine p 2] := by
  simp [addToCart, cartInitialState, incFirst, mkLine, hq]

/-- Claim C3: `addToCart` never fails; it adds exactly one unit overall —
when a line with the payload id exists no line is appended (length is
unchanged and that line's quantity grows by 1, witnessed through
`totalQty`), otherwise a fresh line with quantity 1 is appended at the end;
and two adds of the same id from the empty cart give exactly one line of
quantity 2. -/
theorem addToCart_spec (s : CartState) (p : ProductPayload) :
    totalQty (addToCart s p).items = totalQty s.items + 1 ∧
    ((∃ it ∈ s.items, it.id = p.id) →
        (addToCart s p).items.length = s.items.length) ∧
    ((∀ it ∈ s.items, it.id ≠ p.id) →
        (addToCart s p).items = s.items ++ [mkLine p 1]) ∧
    (∀ q : ProductPayload, q.id = p.id →
        (addToCart (addToCart cartInitialState p) q).items = [mkLine p 2]) := by
  by_cases hany : s.items.any (fun it => it.id == p.id) = true
  · have hitems : (addToCart s p).items = incFirst p.id s.items := by
      simp [addToCart, hany]
    refine ⟨?_, ?_, ?_, double_add p⟩
    · rw [hitems]; exact totalQty_incFirst p.id s.items hany
    · intro _; rw [hitems]; exact length_incFirst p.id s.items
    · intro hnone
      exfalso
      obtain ⟨it, hmem, hbeq⟩ := List.any_eq_true.mp hany
      exact hnone it hmem (by simpa using hbeq)
  · have hitems : (addToCart s p).items = s.items ++ [mkLine p 1] := by
      simp [addToCart, hany]
    refine ⟨?_, ?_, fun _ => hitems, double_add p⟩
    · rw [hitems]; exact totalQty_append_one s.items p
    · rintro ⟨it, hmem, hid⟩
      exact absurd (List.any_eq_true.mpr ⟨it, hmem, by simpa using hid⟩) hany

/-- Witness for C3: concrete double add of payload id 1 from the empty
cart. -/
theorem addToCart_spec_witness :
    ((addToCart (addToCart cartInitialState plW) plW).items.length
        = (addToCart cartInitialState plW).items.length) ∧
    ((addToCart cartInitialState plW).items
        = cartInitialState.items ++ [mkLine plW 1]) ∧
    ((addToCart (addToCart cartInitialState plW) plW).items
        = [mkLine plW 2]) := by
  refine ⟨(addToCart_spec (addToCart cartInitialState plW) plW).2.1
            ⟨mkLine plW 1, by decide, by decide⟩,
          (addToCart_spec cartInitialState plW).2.2.1 ?_,
          (addToCart_spec cartInitialState plW).2.2.2 plW rfl⟩
  intro it hmem
  simp [cartInitialState] at hmem

/-- Claim C10: when a line with the payload id already exists, `addToCart`
changes only that line's quantity — every position keeps its id, title,
price and image, the length is unchanged, and the whole result is
independent of every payload field other than the id. -/
theorem addToCart_existing_frame (s : CartState) (p : ProductPayload)
    (hmem : ∃ it ∈ s.items, it.id = p.id) :
    (addToCart s p).items.length = s.items.length ∧
    (∀ (i : Nat) (old nw : CartItem), s.items[i]? = some old →
        (addToCart s p).items[i]? = some nw → sameLineButQty old nw) ∧
    (∀ q : ProductPayload, q.id = p.id → addToCart s q = addToCart s p) := by
  obtain ⟨it0, hmem0, hid0⟩ := hmem
  have hany : s.items.any (fun it => it.id == p.id) = true :=
    List.any_eq_true.mpr ⟨it0, hmem0, by simpa using hid0⟩
  have hitems : (addToCart s p).items = incFirst p.id s.items := by
    simp [addToCart, hany]
  refine ⟨by rw [hitems]; exact length_incFirst p.id s.items, ?_, ?_⟩
  · intro i old nw hold hnew
    rw [hitems] at hnew
    exact incFirst_get? p.id s.items i old nw hold hnew
  · intro q hq
    have hanyq : s.items.any (fun it => it.id == q.id) = true := by
      rw [hq]; exact hany
    simp [addToCart, hanyq, hany, hq]

/-- Witness for C10: adding a payload with the same id 1 but a different
title, price and image only bumps the stored line's quantity. -/
theorem addToCart_existing_frame_witness :
    ((addToCart (addToCart cartInitialState plW) plW2).items.length
        = (addToCart cartInitialState plW).items.length) ∧
    sameLineButQty (mkLine plW 1) (mkLine plW 2) ∧
    (addToCart (addToCart cartInitialState plW) plW
        = addToCart (addToCart cartInitialState plW) plW2) := by
  have h := addToCart_existing_frame (addToCart cartInitialState plW) plW2
    ⟨mkLine plW 1, by decide, by decide⟩
  exact ⟨h.1,
         h.2.1 0 (mkLine plW 1) (mkLine plW 2) (by decide) (by decide),
         h.2.2 plW (by decide)⟩

/-! ## Lemmas about the products pipeline -/

theorem mem_stableInsert (le : α → α → Bool) (x a : α) (l : List α) :
    a ∈ stableInsert le x l ↔ a = x ∨ a ∈ l := by
  induction l with
  | nil => simp [stableInsert]
  | cons b bs ih =>
    by_cases h : le x b = true
    · simp [stableInsert, h]
    · simp [stableInsert, h, ih]
      tauto

theorem mem_stableSort (le : α → α → Bool) (l : List α) (a : α) :
    a ∈ stableSort le l ↔ a ∈ l := by
  induction l with
  | nil => simp [stableSort]
  | cons b bs ih => simp [stableSort, mem_stableInsert, ih]

theorem mem_sortStep (sb : String) (ps : List Product) (p : Product) :
    p ∈ sortStep sb ps ↔ p ∈ ps := by
  unfold sortStep
  split
  · exact mem_stableSort _ _ _
  · split
    · exact mem_stableSort _ _ _
    · split
      · exact mem_stableSort _ _ _
      · split
        · exact mem_stableSort _ _ _
        · exact Iff.rfl

theorem mem_computeFiltered (ps : List Product) (q sc sb : String)
    (p : Product) :
    p ∈ computeFiltered ps q sc sb ↔
      p ∈ ps ∧ (q = "" ∨ matchesSearch q p = true) ∧
        (sc = "" ∨ p.category = some sc) := by
  unfold computeFiltered
  rw [mem_sortStep]
  by_cases hq : q = "" <;> by_cases hsc : sc = "" <;>
    · simp [hq, hsc, List.mem_filter]
      try tauto

theorem optFilter_mem (f : Product → Option Bool) (x : Product) :
    ∀ (ps res : List Product), optFilter f ps = some res →
      (x ∈ res ↔ x ∈ ps ∧ f x = some true) := by
  intro ps
  induction ps with
  | nil =>
    intro res h
    simp only [optFilter, Option.some.injEq] at h
    subst h
    simp
  | cons p rest ih =>
    intro res h
    simp only [optFilter] at h
    cases hfp : f p with
    | none => rw [hfp] at h; cases h
    | some b =>
      cases hrest : optFilter f rest with
      | none => rw [hfp, hrest] at h; cases h
      | some r0 =>
        rw [hfp, hrest] at h
        simp only [Option.some.injEq] at h
        subst h
        cases b with
        | true =>
          simp only [if_true]
          constructor
          · intro hx
            rcases List.mem_cons.mp hx with hx | hx
            · subst hx; exact ⟨List.mem_cons_self _ _, hfp⟩
            · have hr := (ih r0 hrest).mp hx
              exact ⟨List.mem_cons_of_mem _ hr.1, hr.2⟩
          · rintro ⟨hmem, hfx⟩
            rcases List.mem_cons.mp hmem with hx | hx
            · subst hx; exact List.mem_cons_self _ _
            · exact List.mem_cons_of_mem _ ((ih r0 hrest).mpr ⟨hx, hfx⟩)
        | false =>
          rw [if_neg (by decide)]
          constructor
          · intro hx
            have hr := (ih r0 hrest).mp hx
            exact ⟨List.mem_cons_of_mem _ hr.1, hr.2⟩
          · rintro ⟨hmem, hfx⟩
            rcases List.mem_cons.mp hmem with hx | hx
            · subst hx; rw [hfx] at hfp; cases hfp
            · exact (ih r0 hrest).mpr ⟨hx, hfx⟩

theorem optFilter_append_fail (f : Product → Option Bool) (ps : List Product)
    (x : Product) (hx : f x = none) :
    optFilter f (ps ++ [x]) = none := by
  induction ps with
  | nil => simp [optFilter, hx]
  | cons p rest ih =>
    show optFilter f (p :: (rest ++ [x])) = none
    simp only [optFilter]
    rw [ih]
    cases f p <;> rfl

theorem selectFP_empty_query (ps : List Product) (sc sb : String) :
    selectFilteredProducts ps "" sc sb
      = selSort sb (if sc = "" || sc = "all" then ps
                    else ps.filter (fun p => p.category == some sc)) := rfl

theorem selSort_rating (l : List Product) :
    selSort "rating" l = some (stableSort ratingLe l) := by
  simp [selSort]

theorem selSort_known (sb : String) (l : List Product)
    (hsb : sb = "price-asc" ∨ sb = "price-desc" ∨ sb = "rating" ∨ sb = "name")
    (ht : ∀ p ∈ l, p.title.isSome = true) :
    selSort sb l = some (sortStep sb l) := by
  rcases hsb with h | h | h | h <;> subst h
  · simp [selSort, sortStep]
  · simp [selSort, sortStep]
  · simp [selSort, sortStep]
  · simp [selSort, sortStep, List.all_eq_true.mpr ht]

/-! ## Catalog claims -/

/-- Claim C4, counterexample: dispatching `setLoading true` on a state that
carries an error message sets loading but leaves the error message in
place — it does not clear `error` to null. -/
theorem setLoading_keeps_error_counterexample :
    (setLoading stErr true).loading = true ∧
    (setLoading stErr true).error ≠ none := by
  exact ⟨rfl, by decide⟩

/-- Claim C4 (amended): `setLoading b` sets the loading flag to `b` and
leaves every other field — in particular the error message — exactly as it
was; the error field is cleared by `setProducts`, not by `setLoading`. -/
theorem setLoading_spec (s : ProductsState) (b : Bool) :
    (setLoading s b).loading = b ∧
    (setLoading s b).error = s.error ∧
    (setLoading s b).products = s.products ∧
    (setLoading s b).filteredProducts = s.filteredProducts ∧
    (setLoading s b).searchQuery = s.searchQuery ∧
    (setLoading s b).selectedCategory = s.selectedCategory ∧
    (setLoading s b).sortBy = s.sortBy ∧
    (setLoading s b).categories = s.categories :=
  ⟨rfl, rfl, rfl, rfl, rfl, rfl, rfl, rfl⟩

/-- Claim C7: `setError msg` records the message and ends the loading state
(the code's representation of `status = error`), and leaves products,
filteredProducts, searchQuery, selectedCategory, sortBy and categories
untouched — the visible products still reflect the last successful load. -/
theorem setError_spec (s : ProductsState) (msg : String) :
    (setError s msg).error = some msg ∧
    (setError s msg).loading = false ∧
    (setError s msg).products = s.products ∧
    (setError s msg).filteredProducts = s.filteredProducts ∧
    (setError s msg).searchQuery = s.searchQuery ∧
    (setError s msg).selectedCategory = s.selectedCategory ∧
    (setError s msg).sortBy = s.sortBy ∧
    (setError s msg).categories = s.categories :=
  ⟨rfl, rfl, rfl, rfl, rfl, rfl, rfl, rfl⟩

/-- Claim C5, counterexample: `pBrand` matches the query "nike" only via its
brand; the reducer keeps it, but the memoized selector drops it, so the
four-field OR does not hold for the selector. -/
theorem selector_ignores_brand_counterexample :
    matchesSearch "nike" pBrand = true ∧
    computeFiltered [pBrand] "nike" "" "name" = [pBrand] ∧
    selectFilteredProducts [pBrand] "nike" "" "name" = some [] := by decide

/-- Claim C5 (amended): for a non-empty query the reducer keeps exactly the
products for which one of title/description/category/brand contains the
query case-insensitively; the selector, when its filter pass completes,
keeps exactly the products whose short-circuited title/description/category
test succeeds, and its verdict is independent of the brand field. -/
theorem search_filter_fields (q : String) (ps : List Product) (p : Product)
    (hq : q ≠ "") :
    (p ∈ computeFiltered ps q "" "name"
        ↔ p ∈ ps ∧ matchesSearch q p = true) ∧
    (∀ res, optFilter (selMatches q) ps = some res →
        (p ∈ res ↔ p ∈ ps ∧ selMatches q p = some true)) ∧
    (∀ b : Option String, selMatches q { p with brand := b } = selMatches q p) := by
  refine ⟨?_, ?_, fun b => rfl⟩
  · rw [mem_computeFiltered]
    simp [hq]
  · intro res h
    exact optFilter_mem (selMatches q) p ps res h

/-- Witness for C5 at the spec scenario: query "shoe" over the Red Shoe /
Blue Hat catalog. -/
theorem search_filter_fields_witness :
    (pShoe ∈ computeFiltered [pShoe, pHat] "shoe" "" "name"
        ↔ pShoe ∈ [pShoe, pHat] ∧ matchesSearch "shoe" pShoe = true) ∧
    (pShoe ∈ [pShoe]
        ↔ pShoe ∈ [pShoe, pHat] ∧ selMatches "shoe" pShoe = some true) ∧
    selMatches "shoe" { pShoe with brand := some "zzz" }
        = selMatches "shoe" pShoe := by
  have h := search_filter_fields "shoe" [pShoe, pHat] pShoe (by decide)
  exact ⟨h.1, h.2.1 [pShoe] (by decide), h.2.2 (some "zzz")⟩

/-- Claim C6, counterexample: on a malformed record (missing/non-string
title) whose description matches "x", the guarded reducer keeps filtering
and keeps the record, but the selector's filter pass dereferences the
missing title and aborts (the modelled TypeError), returning no list at
all. -/
theorem selector_malformed_counterexample :
    computeFiltered [pBad] "x" "" "price-asc" = [pBad] ∧
    optFilter (selMatches "x") [pBad] = none ∧
    selectFilteredProducts [pBad] "x" "" "price-asc" = none := by decide

/-- Claim C6 (amended): the reducer's search filter is total and reads each
missing/non-string field as the empty string — its verdict on a record
equals its verdict on the ""-normalised record, and membership in the
filtered list is characterised for every collection, malformed records
included; the selector's filter pass instead aborts whenever the collection
contains a record without a string title (for any non-empty query). -/
theorem reducer_filter_malformed_safe (q : String) (ps : List Product)
    (p : Product) (hq : q ≠ "") :
    matchesSearch q p = matchesSearch q (normalizeP p) ∧
    (p ∈ computeFiltered ps q "" "price-asc"
        ↔ p ∈ ps ∧ matchesSearch q p = true) ∧
    (∀ pb : Product, pb.title = none →
        optFilter (selMatches q) (ps ++ [pb]) = none) := by
  refine ⟨rfl, ?_, ?_⟩
  · rw [mem_computeFiltered]
    simp [hq]
  · intro pb hpb
    apply optFilter_append_fail
    simp [selMatches, hpb]

/-- Witness for C6: the malformed record `pBad` alongside a well-formed
product, at the query "x". -/
theorem reducer_filter_malformed_safe_witness :
    (matchesSearch "x" pBad = matchesSearch "x" (normalizeP pBad)) ∧
    (pBad ∈ computeFiltered [pShoe, pBad] "x" "" "price-asc"
        ↔ pBad ∈ [pShoe, pBad] ∧ matchesSearch "x" pBad = true) ∧
    optFilter (selMatches "x") ([pShoe] ++ [pBad]) = none := by
  have h := reducer_filter_malformed_safe "x" [pShoe, pBad] pBad (by decide)
  have h2 := reducer_filter_malformed_safe "x" [pShoe] pBad (by decide)
  exact ⟨h.1, h.2.1, h2.2.2 pBad rfl⟩

/-- Claim C8, counterexample: with the selected category "all", the
reducer's category step filters by literal equality and excludes the
"shoes" product — "all" is not honoured as a sentinel on the reducer
path. -/
theorem category_all_counterexample :
    (applyFilters stAll).filteredProducts = [] ∧
    computeFiltered [pShoe] "" "all" "name" = [] := by decide

/-- Claim C8 (amended): the reducer's category step keeps exactly the
products whose category equals the selected value (case-sensitive) whenever
the value is non-empty — treating "all" as a literal category value — and
excludes nothing when the value is ""; only the selector additionally skips
filtering for the sentinel "all". -/
theorem category_filter_spec (ps : List Product) (sc : String) (p : Product) :
    (sc = "" → (p ∈ computeFiltered ps "" sc "rating" ↔ p ∈ ps)) ∧
    (sc ≠ "" → (p ∈ computeFiltered ps "" sc "rating"
        ↔ p ∈ ps ∧ p.category = some sc)) ∧
    (∀ res, selectFilteredProducts ps "" sc "rating" = some res →
        ((sc = "" ∨ sc = "all") → (p ∈ res ↔ p ∈ ps)) ∧
        (sc ≠ "" → sc ≠ "all" →
            (p ∈ res ↔ p ∈ ps ∧ p.category = some sc))) := by
  refine ⟨?_, ?_, ?_⟩
  · intro hsc
    rw [mem_computeFiltered]
    simp [hsc]
  · intro hsc
    rw [mem_computeFiltered]
    simp [hsc]
  · intro res h
    rw [selectFP_empty_query, selSort_rating] at h
    injection h with h
    subst h
    constructor
    · intro hall
      have hcond : (decide (sc = "") || decide (sc = "all")) = true := by
        rcases hall with h1 | h1 <;> simp [h1]
      rw [if_pos hcond, mem_stableSort]
    · intro h1 h2
      have hcond : ¬ ((decide (sc = "") || decide (sc = "all")) = true) := by
        simp [h1, h2]
      rw [if_neg hcond, mem_stableSort, List.mem_filter]
      simp

/-- Witness for C8: the category "shoes", the empty category and the
sentinel "all", each at a concrete catalog. -/
theorem category_filter_spec_witness :
    (pShoe ∈ computeFiltered [pShoe, pHat] "" "" "rating" ↔ pShoe ∈ [pShoe, pHat]) ∧
    (pShoe ∈ computeFiltered [pShoe, pHat] "" "shoes" "rating"
        ↔ pShoe ∈ [pShoe, pHat] ∧ pShoe.category = some "shoes") ∧
    (pShoe ∈ [pShoe] ↔ pShoe ∈ [pShoe, pHat] ∧ pShoe.category = some "shoes") ∧
    (pShoe ∈ [pShoe] ↔ pShoe ∈ [pShoe]) := by
  have h0 := category_filter_spec [pShoe, pHat] "" pShoe
  have h1 := category_filter_spec [pShoe, pHat] "shoes" pShoe
  have h2 := category_filter_spec [pShoe] "all" pShoe
  exact ⟨h0.1 rfl, h1.2.1 (by decide),
         (h1.2.2 [pShoe] (by decide)).2 (by decide) (by decide),
         (h2.2.2 [pShoe] (by decide)).1 (Or.inr rfl)⟩

/-- Claim C9, counterexample: for the identical four inputs
(products = [pBrand], searchText = "nike", category = "", sort =
"price-asc") the list stored by the reducer and the list computed by the
selector differ, so the two consumed derivations are not one function of
those inputs. -/
theorem derived_views_disagree_counterexample :
    (applyFilters stBrandQuery).filteredProducts = [pBrand] ∧
    selectFilteredProducts stBrandQuery.products stBrandQuery.searchQuery
        stBrandQuery.selectedCategory stBrandQuery.sortBy = some [] := by decide

/-- Claim C9 (amended): the reducer's `filteredProducts` is the pure
function `computeFiltered` of exactly (products, searchQuery,
selectedCategory, sortBy), and the selector is a pure function of the same
four inputs, but the two functions differ in general; they provably agree
whenever the query is empty, the selected category is not the literal
"all", the sort key is one of the four known keys, and every product's
title is present. -/
theorem derived_views_agree_conditionally (ps : List Product) (sc sb : String)
    (hsc : sc ≠ "all")
    (hsb : sb = "price-asc" ∨ sb = "price-desc" ∨ sb = "rating" ∨ sb = "name")
    (ht : ∀ p ∈ ps, p.title.isSome = true) :
    selectFilteredProducts ps "" sc sb = some (computeFiltered ps "" sc sb) ∧
    (∀ s : ProductsState, s.products = ps → s.searchQuery = "" →
        s.selectedCategory = sc → s.sortBy = sb →
        (applyFilters s).filteredProducts = computeFiltered ps "" sc sb) := by
  constructor
  · rw [selectFP_empty_query]
    have hred : computeFiltered ps "" sc sb
        = sortStep sb (if sc = "" then ps
                       else ps.filter (fun p => p.category == some sc)) := rfl
    rw [hred]
    by_cases hsc0 : sc = ""
    · subst hsc0
      rw [if_pos (by decide), if_pos rfl]
      exact selSort_known sb ps hsb ht
    · rw [if_neg (by simp [hsc0, hsc]), if_neg hsc0]
      exact selSort_known sb _ hsb
        (fun p hp => ht p (List.mem_filter.mp hp).1)
  · intro s h1 h2 h3 h4
    simp [applyFilters, h1, h2, h3, h4]

/-- Witness for C9 at the spec's price-ascending scenario. -/
theorem derived_views_agree_witness :
    selectFilteredProducts [pShoe, pHat] "" "" "price-asc"
        = some (computeFiltered [pShoe, pHat] "" "" "price-asc") ∧
    (applyFilters stScenario).filteredProducts
        = computeFiltered [pShoe, pHat] "" "" "price-asc" := by
  have h := derived_views_agree_conditionally [pShoe, pHat] "" "price-asc"
    (by decide) (Or.inl rfl) (by decide)
  exact ⟨h.1, h.2 stScenario rfl rfl rfl rfl⟩
